import Mathlib

/-! Verification development for the socket.io client protocol core.

The Rust sources are embedded shallowly:
* machine integers (`u64`, `u8`) become `Nat` (no operation in the embedded
  fragment can overflow on the inputs the theorems quantify over);
* `Result<T, E>` becomes `Except E T`, `Option<T>` becomes `Option T`;
* zero-copy sub-slices (`OwnedSubslice`, `Range<usize>` into a message) are
  represented by the sliced content itself (a `String` or `List Nat`), which
  is the semantic value the code manipulates;
* external collaborators (the `tungstenite` message type, `serde_json`'s
  `Open`-struct parser) are modelled as data / function parameters.
-/

namespace Engine

/-- Source `engine::Open` (src/socket-io-protocol/src/engine.rs): the payload of an
engine.io open packet. -/
structure Open where
  sid : String
  pingTimeout : Nat
  pingInterval : Nat
deriving DecidableEq, Repr

/-- Source `tungstenite::Message`: the transport-level WebSocket frame type. Payloads
of `Ping`/`Pong` are byte vectors; the close frame's payload is dropped (the
decoder never inspects it). -/
inductive WsMessage where
  | text (s : String)
  | binary (data : List Nat)
  | ping (data : List Nat)
  | pong (data : List Nat)
  | close
deriving DecidableEq, Repr

/-- Source `engine::Message`: the payload of a decoded engine message packet. -/
inductive Message where
  | text (s : String)
  | binary (data : List Nat)
deriving DecidableEq, Repr

/-- Source `engine::Packet`. -/
inductive Packet where
  | open (o : Open)
  | close
  | ping
  | pong
  | message (m : Message)
deriving DecidableEq, Repr

/-- Source `engine::Error`. The `serde_json` error payload of `JsonError` is not
modelled (the decoder only propagates it). -/
inductive Error where
  | invalidMessage (msg : WsMessage)
  | wrongMessageType (msg : WsMessage)
  | messageBeforeOpen
  | messageAfterClose
  | secondOpen
  | jsonError
deriving DecidableEq, Repr

/-- Source `engine::State`: the decoder's lifecycle state. -/
inductive State where
  | initial
  | active
  | closed
deriving DecidableEq, Repr

/-- Source `Decoder::decode_text`. `po` models `parse_open`, i.e. `serde_json`'s
parse of the open payload into `Open` (an external library call); the decoder
is parametric in it. Returns the packet together with the successor state
(the Rust method mutates `self.state` on the `'0'` and `'1'` branches). -/
def decodeText (po : String → Option Open) (st : State) (text : String) :
    Except Error (Packet × State) :=
  match text.data with
  | [] => .error (.invalidMessage (.text text))
  | c :: rest =>
    if c = '0' then
      if st ≠ .initial then
        .error .secondOpen
      else
        match po (String.mk rest) with
        | some o => .ok (.open o, .active)
        | none => .error .jsonError
    else if c = '1' then
      if st = .initial then .error .messageBeforeOpen
      else .ok (.close, .closed)
    else if c = '2' then
      if st = .initial then .error .messageBeforeOpen
      else .ok (.ping, st)
    else if c = '3' then
      if st = .initial then .error .messageBeforeOpen
      else .ok (.pong, st)
    else if c = '4' then
      .ok (.message (.text (String.mk rest)), st)
    else .error (.invalidMessage (.text text))

/-- Source `Decoder::decode_binary`. -/
def decodeBinary (st : State) (data : List Nat) : Except Error (Packet × State) :=
  if st = .initial then
    .error .messageBeforeOpen
  else
    match data with
    | [] => .error (.invalidMessage (.binary data))
    | b :: rest =>
      if b ≠ 4 then .error (.invalidMessage (.binary data))
      else .ok (.message (.binary rest), st)

/-- Source `Decoder::decode`: rejects transport frames, checks the closed state
first, then dispatches on the frame type. -/
def decode (po : String → Option Open) (st : State) (msg : WsMessage) :
    Except Error (Packet × State) :=
  if st = .closed then
    .error .messageAfterClose
  else
    match msg with
    | .ping d => .error (.wrongMessageType (.ping d))
    | .pong d => .error (.wrongMessageType (.pong d))
    | .close => .error (.wrongMessageType .close)
    | .text text => decodeText po st text
    | .binary data => decodeBinary st data

/-- Source `engine::encode_binary`: a binary message frame is the payload prefixed
with the binary header byte `4`. -/
def encodeBinary (data : List Nat) : WsMessage :=
  .binary (4 :: data)

/-- A transport-level frame: WebSocket `Ping`, `Pong` or `Close`. -/
def WsMessage.isTransport : WsMessage → Bool
  | .ping _ => true
  | .pong _ => true
  | .close => true
  | _ => false

end Engine

namespace Socket

/-- Source `socket::ProtocolKind` (named `ProtocolKind` in socket/de.rs / ser.rs):
the six wire packet kinds. -/
inductive ProtocolKind where
  | connect
  | disconnect
  | event
  | ack
  | binaryEvent
  | binaryAck
deriving DecidableEq, Repr

/-- Source `socket::Kind`: the four kinds a completed packet can carry (binary kinds
are normalised away). -/
inductive Kind where
  | connect
  | disconnect
  | event
  | ack
deriving DecidableEq, Repr

/-- Source `socket::Error` (socket module error type). The `serde_json` payload of
`InvalidDataJson` is dropped. -/
inductive SocketError where
  | nonAttachmentBinary (data : List Nat)
  | textAttachment (text : String)
  | invalidMessage (msg : String)
  | invalidExtraData (name : String) (msg : String)
  | missingData (name : String) (msg : String)
  | invalidDataJson (args : String)
  | invalidAttachmentCount (actual : Nat) (expected : Nat)
deriving DecidableEq, Repr

/-- Source `Parse` (socket/de.rs): the raw result of matching the header grammar.
The source stores `Range<usize>` indices into the message for the namespace
and the args; here the sliced contents are stored directly (`namespace` is a
Lean keyword, so the field is named `nsp`). -/
structure Parse where
  message : String
  kind : ProtocolKind
  attachments : Option Nat
  nsp : Option String
  id : Option Nat
  args : List String
deriving DecidableEq, Repr

/-- Source `socket::Packet` (the canonical packet produced by socket/de.rs):
attachments are owned byte buffers. -/
structure Packet where
  message : String
  kind : Kind
  nsp : Option String
  id : Option Nat
  args : List String
  attachments : List (List Nat)
deriving DecidableEq, Repr

/-- Source `socket::Partial` (socket/de.rs): a parse awaiting binary attachments. -/
structure PartialParse where
  parse : Parse
deriving DecidableEq, Repr

/-- Source `socket::DeserializeResult`. -/
inductive DeserializeResult where
  | packet (p : Packet)
  | dataNeeded (pp : PartialParse)
deriving DecidableEq, Repr

/-! The header regular expression.

`DESERIALIZE_RE` in socket/de.rs is (with literal braces spelled out)

```
^([012356])((0|[1-9][0-9]*)-)?((/.+),)?(0|[1-9][0-9]*)?(\[.*\])?$
```

compiled with the Rust `regex` crate, which gives leftmost-first (Perl-like)
semantics: alternations prefer their left branch, `+`/`*` are greedy, and
optional groups prefer to match. The matcher below implements exactly those
semantics for this pattern by enumerating each group's candidate matches in
the regex engine's preference order and backtracking through them.
-/

/-- The capture groups of `DESERIALIZE_RE`: group 1 (kind byte), group 3
(attachment-count digits), group 5 (namespace), group 6 (id digits), group 7
(argument array text). -/
structure Caps where
  kind : Char
  attachments : Option (List Char)
  nsp : Option (List Char)
  id : Option (List Char)
  args : Option (List Char)
deriving DecidableEq, Repr

/-- Candidate matches of `(0|[1-9][0-9]*)`, each paired with the remaining
input, in leftmost-first preference order: the `0` branch first, otherwise
the greedy `[0-9]*` from longest to shortest. -/
def intCandidates : List Char → List (List Char × List Char)
  | [] => []
  | c :: rest =>
    if c = '0' then [([c], rest)]
    else if c.isDigit then
      let run := rest.takeWhile Char.isDigit
      let tail := rest.drop run.length
      ((List.range (run.length + 1)).reverse).map
        (fun k => (c :: run.take k, run.drop k ++ tail))
    else []

/-- The tail `(\[.*\])?$`: either the remaining input is empty (group
absent), or the whole remainder is `[` … `]` with no newline (since `.` does
not match a newline and the group must reach `$`). Returns group 7. -/
def matchArgsEnd (s : List Char) : Option (Option (List Char)) :=
  if s.isEmpty then some none
  else if s.head? = some '[' ∧ s.getLast? = some ']' ∧ 2 ≤ s.length ∧
      ¬ s.contains '\n' then
    some (some s)
  else none

/-- The tail `(0|[1-9][0-9]*)?(\[.*\])?$`: try the id group's candidates in
preference order, then the group-absent branch. Returns groups 6 and 7. -/
def matchIdArgs (s : List Char) :
    Option (Option (List Char) × Option (List Char)) :=
  ((intCandidates s).findSome? (fun p =>
      (matchArgsEnd p.2).map (fun a => (some p.1, a)))) <|>
    (matchArgsEnd s).map (fun a => ((none : Option (List Char)), a))

/-- Candidate matches of `(/.+),` at the start of `s`, in greedy preference
order: for each comma position `j` (largest first) with at least one
non-newline character between the leading `/` and the comma, the namespace is
`s.take j` and the remainder follows the comma. -/
def nsCandidates (s : List Char) : List (List Char × List Char) :=
  match s with
  | '/' :: _ =>
    ((List.range s.length).reverse).filterMap (fun j =>
      if 2 ≤ j ∧ s.get? j = some ',' ∧ ¬ (s.take j).contains '\n' then
        some (s.take j, s.drop (j + 1))
      else none)
  | _ => []

/-- The tail `((/.+),)?(0|[1-9][0-9]*)?(\[.*\])?$`. Returns groups 5-7. -/
def matchNsIdArgs (s : List Char) :
    Option (Option (List Char) × Option (List Char) × Option (List Char)) :=
  ((nsCandidates s).findSome? (fun p =>
      (matchIdArgs p.2).map (fun ia => (some p.1, ia.1, ia.2)))) <|>
    (matchIdArgs s).map (fun ia => ((none : Option (List Char)), ia.1, ia.2))

/-- The whole of `DESERIALIZE_RE`: kind byte, then the optional
`(digits)-` attachment-count group (candidates in preference order, falling
back to absence), then the rest. -/
def matchHeaderRe : List Char → Option Caps
  | [] => none
  | c :: rest =>
    if c = '0' ∨ c = '1' ∨ c = '2' ∨ c = '3' ∨ c = '5' ∨ c = '6' then
      (((intCandidates rest).findSome? (fun p =>
          match p.2 with
          | '-' :: r2 =>
            (matchNsIdArgs r2).map (fun nia =>
              ⟨c, some p.1, nia.1, nia.2.1, nia.2.2⟩)
          | _ => none)) <|>
        (matchNsIdArgs rest).map (fun nia =>
          ⟨c, none, nia.1, nia.2.1, nia.2.2⟩))
    else none

/-! Argument-array splitting.

`parse_args` in socket/de.rs parses the argument text as
`Vec<&serde_json::value::RawValue>`, which checks the text is a JSON array
and yields the sub-range of each top-level element. The scanner below models
that splitting: it walks the element list, treating strings (with escapes)
and nested brackets atomically, and requires the input to be fully consumed
(as `serde_json::from_str` does). It is fuelled by the input length.
-/

/-- Skip JSON whitespace. -/
def skipWs : List Char → List Char
  | c :: rest =>
    if c = ' ' ∨ c = '\t' ∨ c = '\n' ∨ c = '\r' then skipWs rest else c :: rest
  | [] => []

/-- Scan the body of a JSON string after the opening quote, including the
closing quote, honouring backslash escapes. -/
def scanStringBody : Nat → List Char → Option (List Char × List Char)
  | 0, _ => none
  | _, [] => none
  | fuel + 1, c :: rest =>
    if c = '"' then some ([c], rest)
    else if c = '\\' then
      match rest with
      | e :: rest2 =>
        (scanStringBody fuel rest2).map (fun p => (c :: e :: p.1, p.2))
      | [] => none
    else (scanStringBody fuel rest).map (fun p => (c :: p.1, p.2))

/-- A character that may appear in a number or keyword atom. -/
def isAtomChar (c : Char) : Bool :=
  c.isDigit ∨ c = '-' ∨ c = '+' ∨ c = '.' ∨ c = 'e' ∨ c = 'E' ∨
    c = 't' ∨ c = 'r' ∨ c = 'u' ∨ c = 'f' ∨ c = 'a' ∨ c = 'l' ∨ c = 's' ∨
    c = 'n'

/-- Scan the interior of a bracketed group up to and including the given
closing delimiter, descending into nested strings, arrays and objects. -/
def scanGroup : Nat → Char → List Char → Option (List Char × List Char)
  | 0, _, _ => none
  | _, _, [] => none
  | fuel + 1, close, c :: rest =>
    if c = close then some ([c], rest)
    else if c = '"' then do
      let p ← scanStringBody fuel rest
      let q ← scanGroup fuel close p.2
      pure (c :: (p.1 ++ q.1), q.2)
    else if c = '[' then do
      let p ← scanGroup fuel ']' rest
      let q ← scanGroup fuel close p.2
      pure (c :: (p.1 ++ q.1), q.2)
    else if c = '\x7b' then do
      let p ← scanGroup fuel '\x7d' rest
      let q ← scanGroup fuel close p.2
      pure (c :: (p.1 ++ q.1), q.2)
    else do
      let q ← scanGroup fuel close rest
      pure (c :: q.1, q.2)

/-- Scan one JSON value, returning its text and the remaining input. -/
def scanVal (fuel : Nat) (s : List Char) : Option (List Char × List Char) :=
  match s with
  | [] => none
  | c :: rest =>
    if c = '"' then (scanStringBody fuel rest).map (fun p => (c :: p.1, p.2))
    else if c = '[' then (scanGroup fuel ']' rest).map (fun p => (c :: p.1, p.2))
    else if c = '\x7b' then
      (scanGroup fuel '\x7d' rest).map (fun p => (c :: p.1, p.2))
    else if isAtomChar c then
      some (c :: rest.takeWhile isAtomChar, rest.dropWhile isAtomChar)
    else none

/-- Split the elements of a JSON array after its opening bracket; the input
must be fully consumed up to trailing whitespace. -/
def splitTop : Nat → List Char → List (List Char) → Option (List (List Char))
  | 0, _, _ => none
  | fuel + 1, s, acc => do
    let p ← scanVal fuel s
    match skipWs p.2 with
    | ',' :: r2 => splitTop fuel (skipWs r2) (acc ++ [p.1])
    | ']' :: r2 => if (skipWs r2).isEmpty then some (acc ++ [p.1]) else none
    | _ => none

/-- Source `parse_args` (socket/de.rs): the element texts of the JSON argument
array, or `none` when `serde_json` would reject the text. -/
def splitJsonArray (a : String) : Option (List String) :=
  match skipWs a.data with
  | '[' :: rest =>
    match skipWs rest with
    | ']' :: r2 => if (skipWs r2).isEmpty then some [] else none
    | rest2 => (splitTop (2 * a.length + 2) rest2 []).map (List.map String.mk)
  | _ => none

/-- The numeric value of a digit string (`str::parse::<u64>().unwrap()`;
counts large enough to overflow `u64` do not occur in the embedded claims). -/
def digitsToNat (ds : List Char) : Nat :=
  ds.foldl (fun n c => 10 * n + (c.toNat - '0'.toNat)) 0

/-- Source `parse_text` (socket/de.rs): match the header regex, decode the kind
byte, convert counts, and split the argument array (propagating its JSON
error). -/
def parseText (s : String) : Except SocketError Parse :=
  match matchHeaderRe s.data with
  | none => .error (.invalidMessage s)
  | some caps =>
    let kind : ProtocolKind :=
      if caps.kind = '0' then .connect
      else if caps.kind = '1' then .disconnect
      else if caps.kind = '2' then .event
      else if caps.kind = '3' then .ack
      else if caps.kind = '5' then .binaryEvent
      else .binaryAck
    match caps.args with
    | some a =>
      match splitJsonArray (String.mk a) with
      | none => .error (.invalidDataJson (String.mk a))
      | some args =>
        .ok ⟨s, kind, caps.attachments.map digitsToNat, caps.nsp.map String.mk,
          caps.id.map digitsToNat, args⟩
    | none =>
      .ok ⟨s, kind, caps.attachments.map digitsToNat, caps.nsp.map String.mk,
        caps.id.map digitsToNat, []⟩

/-- Source `deserialize_dataless` (socket/de.rs). -/
def deserializeDataless (pr : Parse) (kind : Kind) (name : String) :
    Except SocketError Packet :=
  if pr.attachments.isSome ∨ pr.id.isSome ∨ ¬ pr.args.isEmpty then
    .error (.invalidExtraData name pr.message)
  else
    .ok ⟨pr.message, kind, pr.nsp, none, [], []⟩

/-- Source `deserialize_event` (socket/de.rs): validates id/args, then the
attachment count against the declared count (`unwrap_or(0)`). -/
def deserializeEvent (pr : Parse) (kind : Kind) (name : String)
    (attachments : List (List Nat)) : Except SocketError Packet :=
  if (kind = .ack ∧ pr.id.isNone) ∨ pr.args.isEmpty then
    .error (.missingData name pr.message)
  else if attachments.length ≠ pr.attachments.getD 0 then
    .error (.invalidAttachmentCount attachments.length (pr.attachments.getD 0))
  else
    .ok ⟨pr.message, kind, pr.nsp, pr.id, pr.args, attachments⟩

/-- Source `deserialize_binary` (socket/de.rs): a declared count of 0 completes the
packet immediately; a positive count yields a `Partial`; a missing count is
`MissingData`. -/
def deserializeBinary (pr : Parse) (kind : Kind) (name : String) :
    Except SocketError DeserializeResult :=
  match pr.attachments with
  | some n =>
    if n = 0 then (deserializeEvent pr kind name []).map .packet
    else .ok (.dataNeeded ⟨pr⟩)
  | none => .error (.missingData name pr.message)

/-- Source `deserialize_text` (socket/de.rs). -/
def deserializeText (s : String) : Except SocketError DeserializeResult :=
  match parseText s with
  | .error e => .error e
  | .ok pr =>
    match pr.kind with
    | .connect => (deserializeDataless pr .connect "connect").map .packet
    | .disconnect => (deserializeDataless pr .disconnect "disconnect").map .packet
    | .event => (deserializeEvent pr .event "event" []).map .packet
    | .ack => (deserializeEvent pr .ack "ack" []).map .packet
    | .binaryEvent => deserializeBinary pr .event "binary event"
    | .binaryAck => deserializeBinary pr .ack "binary ack"

/-- Source `socket::deserialize` (socket/de.rs): binary engine messages are not
packet headers. -/
def deserialize (msg : Engine.Message) : Except SocketError DeserializeResult :=
  match msg with
  | .text text => deserializeText text
  | .binary data => .error (.nonAttachmentBinary data)

/-- The attachment collection step of `deserialize_partial` (socket/de.rs):
each attachment must be a binary engine message (the first text message
errors, in order, as `collect::<Result<_, _>>` does). -/
def collectAttachments : List Engine.Message →
    Except SocketError (List (List Nat))
  | [] => .ok []
  | .text text :: _ => .error (.textAttachment text)
  | .binary data :: rest => (collectAttachments rest).map (data :: ·)

/-- Source `deserialize_partial` (socket/de.rs). The source's `_ => unreachable!()`
arm (a `Partial` only ever holds a binary kind) is modelled by an
`InvalidMessage` error. -/
def deserializePartial (pp : PartialParse) (attachments : List Engine.Message) :
    Except SocketError Packet :=
  match collectAttachments attachments with
  | .error e => .error e
  | .ok bufs =>
    match pp.parse.kind with
    | .binaryEvent => deserializeEvent pp.parse .event "binary event" bufs
    | .binaryAck => deserializeEvent pp.parse .ack "binary ack" bufs
    | _ => .error (.invalidMessage pp.parse.message)

/-- Source `Partial::attachments` (socket/de.rs): the declared count
(`unwrap()`; every constructed `Partial` carries `Some`). -/
def PartialParse.attachmentCount (pp : PartialParse) : Nat :=
  pp.parse.attachments.getD 0

end Socket

namespace Args

/-- The serialized form of `Placeholder::new(idx)`
(serialize_attachments.rs): the JSON object text
`\x7b"_placeholder":true,"num":idx\x7d`. -/
def placeholderText (idx : Nat) : String :=
  "\x7b\"_placeholder\":true,\"num\":" ++ toString idx ++ "\x7d"

/-- One element of a serialized sequence, abstracting the element type's
`Serialize` implementation. `byte b` is an element whose serialization calls
`serialize_u8` (a Rust `u8`) — the only entry point `SeqElementSerializer`
accepts; `val t` is any other element, whose serialization through the
attachment wrapper emits the JSON text `t` (heterogeneous sequences arise
from JSON-value-like element types, whose numbers go through
`serialize_u64`/`i64`/`f64`, never `serialize_u8`). -/
inductive SeqElem where
  | byte (b : Nat)
  | val (t : String)
deriving DecidableEq, Repr

/-- Source `BytesState` (serialize_attachments.rs): `bytes data` is the accumulator
of the byte heuristic (`data` carries the binary header once non-empty);
`poisoned parts` holds the JSON texts already written to the underlying
sequence serializer. -/
inductive BytesState where
  | bytes (data : List Nat)
  | poisoned (parts : List String)
deriving DecidableEq, Repr

/-- Source `SerializeSeq::serialize_element` for `SeqWrapper`
(serialize_attachments.rs): a `u8` element is accumulated, pushing the
binary header `4` first when the accumulator is empty; any other element
flushes the accumulator as JSON numbers (the flush loop serializes every
byte of `data`, the header byte included) and poisons the state. -/
def seqElement : BytesState → SeqElem → BytesState
  | .bytes data, .byte b => .bytes ((if data.isEmpty then [4] else data) ++ [b])
  | .bytes data, .val t => .poisoned (data.map toString ++ [t])
  | .poisoned parts, .byte b => .poisoned (parts ++ [toString b])
  | .poisoned parts, .val t => .poisoned (parts ++ [t])

/-- Source `SerializeSeq::end` for `SeqWrapper`: an empty accumulator emits the
empty JSON array and no attachment; a non-empty accumulator becomes a binary
attachment (`package_binary`) replaced by a placeholder object; a poisoned
sequence ends as a plain JSON array. Returns the emitted JSON text and the
updated outgoing frame list. -/
def seqEnd (st : BytesState) (buffers : List Engine.WsMessage) :
    String × List Engine.WsMessage :=
  match st with
  | .bytes data =>
    if data.isEmpty then ("[]", buffers)
    else (placeholderText buffers.length, buffers ++ [.binary data])
  | .poisoned parts => ("[" ++ String.intercalate "," parts ++ "]", buffers)

/-- Serializing a whole sequence through `SeqWrapper`: fold the elements,
then `end`. -/
def seqSerialize (elems : List SeqElem) (buffers : List Engine.WsMessage) :
    String × List Engine.WsMessage :=
  seqEnd (elems.foldl seqElement (.bytes [])) buffers

/-- A JSON value, as seen by the deserialization adapter. Numbers are
integers (floats do not occur in the embedded fragment). -/
inductive Json where
  | null
  | bool (b : Bool)
  | num (n : Int)
  | str (s : String)
  | arr (elems : List Json)
  | obj (fields : List (String × Json))
deriving Repr

/-- Source `AccessType` (deserialize_attachments.rs). -/
inductive AccessType where
  | bytes
  | seq
  | neither
deriving DecidableEq, Repr

/-- The `Deserializer` entry point the caller invoked, mirroring the macro
invocation lists of `BinaryDeserializer` in deserialize_attachments.rs
(`enum`/`struct` are Lean keywords, hence `enumT`/`structT`). -/
inductive TargetKind where
  | any
  | bool
  | i8
  | i16
  | i32
  | i64
  | u8
  | u16
  | u32
  | u64
  | f32
  | f64
  | char
  | option
  | unit
  | unitStruct
  | newtypeStruct
  | map
  | enumT
  | identifier
  | ignoredAny
  | i128
  | u128
  | str
  | string
  | bytes
  | byteBuf
  | seq
  | tuple
  | tupleStruct
  | structT
deriving DecidableEq, Repr

/-- The access type `BinaryDeserializer` attaches to each entry point:
`str`/`string`/`bytes`/`byte_buf` get `Bytes`, the sequence-like group
`seq`/`tuple`/`tuple_struct`/`struct` gets `Seq`, every other entry point
gets `Neither` (the `deserialize_forward!` list). -/
def accessTypeFor : TargetKind → AccessType
  | .str | .string | .bytes | .byteBuf => .bytes
  | .seq | .tuple | .tupleStruct | .structT => .seq
  | _ => .neither

/-- What `BinaryVisitor::visit_map` delivers to the wrapped visitor. -/
inductive VisitResult where
  | borrowedBytes (bs : List Nat)
  | byteSeq (bs : List Nat)
  | passthroughMap (fields : List (String × Json))
deriving Repr

/-- Source `BinaryVisitor::visit_map` (deserialize_attachments.rs), composed with
`serde_json`'s surrounding object parsing: peek the first key; if it is
`_placeholder`, consume its value as a bool, require the next key to be
`num` with an unsigned-integer value, look the attachment up (out of range
is the custom error of the source), require the object to end there (as
`serde_json`'s `deserialize_map` does after the visitor returns), and
deliver the buffer — as borrowed bytes for access type `Bytes`, as a
sequence of bytes for `Seq` and `Neither`. Any other first key re-yields
the whole map to the wrapped visitor. -/
def visitMap (acc : AccessType) (buffers : List (List Nat))
    (fields : List (String × Json)) : Except String VisitResult :=
  match fields with
  | [] => .ok (.passthroughMap [])
  | (key, v) :: rest =>
    if key = "_placeholder" then
      match v with
      | .bool _ =>
        match rest with
        | (key2, nv) :: rest2 =>
          if key2 = "num" then
            match nv with
            | .num n =>
              if n < 0 then .error "invalid type for num"
              else
                match buffers[n.toNat]? with
                | some buf =>
                  if rest2.isEmpty then
                    match acc with
                    | .bytes => .ok (.borrowedBytes buf)
                    | _ => .ok (.byteSeq buf)
                  else .error "trailing entries after placeholder object"
                | none => .error "Placeholder num out of range"
            | _ => .error "invalid type for num"
          else .error "_placeholder key present without num key"
        | [] => .error "_placeholder key present without num key"
      | _ => .error "invalid type: expected bool"
    else .ok (.passthroughMap ((key, v) :: rest))

end Args

namespace Socket

/-- An argument handed to `PacketBuilder::serialize_arg`, abstracting the
user type's `Serialize` implementation: `json t` is a value that serializes
to the JSON text `t` and contains no byte-typed leaves; `bytes bs` is a byte
slice (which serde drives through `serialize_seq` with `u8` elements);
`failing` is a value whose `Serialize` implementation fails. -/
inductive BArg where
  | json (t : String)
  | bytes (bs : List Nat)
  | failing
deriving DecidableEq, Repr

/-- Source `args::serialize_arg` (args/mod.rs): plain `serde_json` serialization of
the argument; a byte slice serializes as a JSON array of numbers. -/
def serializeArgNormal : BArg → Option String
  | .json t => some t
  | .bytes bs => some ("[" ++ String.intercalate "," (bs.map toString) ++ "]")
  | .failing => none

/-- Source `args::serialize_arg_binary` (`serialize_json` in
serialize_attachments.rs): serialization through the attachment-extracting
wrapper; a byte slice goes through the `SeqWrapper` byte heuristic. -/
def serializeArgBinary (arg : BArg) (buffers : List Engine.WsMessage) :
    Option (String × List Engine.WsMessage) :=
  match arg with
  | .json t => some (t, buffers)
  | .bytes bs => some (Args.seqSerialize (bs.map .byte) buffers)
  | .failing => none

/-- The wire digit of each protocol kind (`serialize_header`, ser.rs). -/
def kindDigit : ProtocolKind → String
  | .connect => "0"
  | .disconnect => "1"
  | .event => "2"
  | .ack => "3"
  | .binaryEvent => "5"
  | .binaryAck => "6"

/-- Source `serialize_header` (ser.rs): engine message header `'4'`, kind digit,
optional `count-`, optional `namespace,`, optional id. -/
def serializeHeader (kind : ProtocolKind) (attachments : Option Nat)
    (nsp : Option String) (id : Option Nat) : String :=
  "4" ++ kindDigit kind ++
    (match attachments with
     | some n => toString n ++ "-"
     | none => "") ++
    (match nsp with
     | some n => n ++ ","
     | none => "") ++
    (match id with
     | some i => toString i
     | none => "")

/-- Source `Approach` (ser.rs). -/
inductive Approach where
  | normal
  | binary (kind : ProtocolKind) (nsp : Option String) (id : Option Nat)
      (attachments : List Engine.WsMessage)
deriving DecidableEq, Repr

/-- Source `PacketBuilder` (ser.rs). -/
structure PacketBuilder where
  buffer : String
  approach : Approach
  first : Bool
deriving DecidableEq, Repr

/-- Source `PacketBuilder::serialize_arg` (ser.rs): write `[` (consuming the
`first` flag) or `,`, then the argument; on failure the buffer and, in
binary mode, the attachment list are truncated back to their starting
lengths. The `Bool` is `result.is_ok()`. -/
def PacketBuilder.serializeArg (b : PacketBuilder) (arg : BArg) :
    PacketBuilder × Bool :=
  let opened := if b.first then b.buffer ++ "[" else b.buffer ++ ","
  let first1 := false
  match b.approach with
  | .normal =>
    match serializeArgNormal arg with
    | some t => (⟨opened ++ t, .normal, first1⟩, true)
    | none => (⟨b.buffer, .normal, first1⟩, false)
  | .binary k n i atts =>
    match serializeArgBinary arg atts with
    | some (t, atts2) => (⟨opened ++ t, .binary k n i atts2, first1⟩, true)
    | none => (⟨b.buffer, .binary k n i atts, first1⟩, false)

/-- Source `PacketBuilder::finish` (ser.rs): close the argument array when any
argument was started; in binary mode, substitute the final attachment count
into the header and prepend the header frame. -/
def PacketBuilder.finish (b : PacketBuilder) : List Engine.WsMessage :=
  let s := if b.first then b.buffer else b.buffer ++ "]"
  match b.approach with
  | .normal => [.text s]
  | .binary k n i atts =>
    .text (serializeHeader k (some atts.length) n i ++ s) :: atts

/-- serde_json's escaping of one character inside a string literal. -/
def escChar (c : Char) : String :=
  if c = '"' then "\\\""
  else if c = '\\' then "\\\\"
  else if c = '\x08' then "\\b"
  else if c = '\x0c' then "\\f"
  else if c = '\n' then "\\n"
  else if c = '\r' then "\\r"
  else if c = '\t' then "\\t"
  else if c.toNat < 0x20 then
    "\\u00" ++
      String.singleton (Nat.digitChar (c.toNat / 16)) ++
      String.singleton (Nat.digitChar (c.toNat % 16))
  else String.singleton c

/-- The serde_json serialization of a Rust `&str`. -/
def jsonQuote (s : String) : String :=
  "\"" ++ String.join (s.data.map escChar) ++ "\""

/-- Source `PacketBuilder::new_event` (ser.rs): header (text mode) or empty buffer
(binary mode), then the event name is serialized as the first argument (a
`&str`, whose serialization cannot fail). -/
def PacketBuilder.newEvent (event : String) (nsp : Option String)
    (id : Option Nat) (bin : Bool) : PacketBuilder :=
  let b : PacketBuilder :=
    if !bin then
      ⟨serializeHeader .event none nsp id, .normal, true⟩
    else
      ⟨"", .binary .binaryEvent nsp id [], true⟩
  (b.serializeArg (.json (jsonQuote event))).1

/-- Source `PacketBuilder::new_ack` (ser.rs). -/
def PacketBuilder.newAck (nsp : Option String) (id : Nat) (bin : Bool) :
    PacketBuilder :=
  if !bin then
    ⟨serializeHeader .ack none nsp (some id), .normal, true⟩
  else
    ⟨"", .binary .binaryAck nsp (some id) [], true⟩

end Socket

namespace Client

/-- Source `InProgress` (receiver.rs). The first field is `partial` in the source
(a Lean keyword here). -/
structure InProgress where
  partialParse : Socket.PartialParse
  attachments : List Engine.Message
deriving DecidableEq, Repr

/-- Source `InProgress::add`. -/
def InProgress.add (ip : InProgress) (msg : Engine.Message) : InProgress :=
  { ip with attachments := ip.attachments ++ [msg] }

/-- Source `InProgress::ready`: the declared count equals the collected count. -/
def InProgress.ready (ip : InProgress) : Bool :=
  ip.partialParse.attachmentCount = ip.attachments.length

/-- Source `InProgress::deserialize`. -/
def InProgress.deserializeIp (ip : InProgress) :
    Except Socket.SocketError Socket.Packet :=
  Socket.deserializePartial ip.partialParse ip.attachments

/-- User callbacks are opaque closures; they are modelled by identifiers
(the dispatch layer only stores, clones and returns them). -/
abbrev Callback := Nat

/-- Source `Namespace` (callbacks.rs): the per-namespace callback record. The
`HashMap`s are modelled as key-unique association lists; `HashMap::remove`
becomes a key filter. -/
structure NamespaceEntry where
  fallback : Option Callback
  events : List (String × Callback)
  acks : List (Nat × Callback)
deriving DecidableEq, Repr

/-- Source `Callbacks` (callbacks.rs). -/
structure Callbacks where
  namespaces : List (String × NamespaceEntry)
deriving DecidableEq, Repr

/-- Source `Callbacks::get_event`: the event-specific callback if present, else the
namespace fallback. -/
def Callbacks.getEvent (c : Callbacks) (nsp event : String) :
    Option Callback :=
  match c.namespaces.find? (fun kv => kv.1 == nsp) with
  | none => none
  | some kv =>
    ((kv.2.events.find? (fun e => e.1 == event)).map (·.2)) <|> kv.2.fallback

/-- Source `Callbacks::get_and_clear_ack`: return the ack entry for `id` and remove
it from the namespace's table in the same operation. -/
def Callbacks.getAndClearAck (c : Callbacks) (nsp : String) (id : Nat) :
    Option Callback × Callbacks :=
  match c.namespaces.find? (fun kv => kv.1 == nsp) with
  | none => (none, c)
  | some kv =>
    ((kv.2.acks.find? (fun a => a.1 == id)).map (·.2),
     ⟨c.namespaces.map (fun kv2 =>
       if kv2.1 = nsp then
         (kv2.1, { kv2.2 with acks := kv2.2.acks.filter (fun a => !(a.1 == id)) })
       else kv2)⟩)

/-- The ack callback currently registered for `(nsp, id)`. -/
def Callbacks.lookupAck (c : Callbacks) (nsp : String) (id : Nat) :
    Option Callback :=
  match c.namespaces.find? (fun kv => kv.1 == nsp) with
  | none => none
  | some kv => (kv.2.acks.find? (fun a => a.1 == id)).map (·.2)

/-- The dispatch-relevant cases of the receiver `Error` type
(receiver.rs). -/
inductive DispatchError where
  | argsError
  | eventNoArgs
  | unexpectedAck
deriving DecidableEq, Repr

/-- The `Data::Ack` branch of `Receiver::process_packet` (receiver.rs):
take-and-call. On success, the fired callback and the updated table; a
missing entry is `UnexpectedAck`. -/
def processAck (c : Callbacks) (nsp : String) (id : Nat) :
    Except DispatchError (Callback × Callbacks) :=
  match c.getAndClearAck nsp id with
  | (some cb, c2) => .ok (cb, c2)
  | (none, _) => .error .unexpectedAck

/-- Models `Arg::deserialize::<Cow<str>>` for the event-name argument: the
`serde_json` parse of a JSON string literal (the placeholder adapter passes
string values through unchanged). `\uXXXX` escapes are outside the modelled
fragment. -/
def decodeJsonStrBody : Nat → List Char → Option (List Char)
  | 0, _ => none
  | _, [] => none
  | fuel + 1, c :: rest =>
    if c = '"' then if rest.isEmpty then some [] else none
    else if c = '\\' then
      match rest with
      | e :: rest2 =>
        let esc : Option Char :=
          if e = '"' then some '"'
          else if e = '\\' then some '\\'
          else if e = '/' then some '/'
          else if e = 'b' then some '\x08'
          else if e = 'f' then some '\x0c'
          else if e = 'n' then some '\n'
          else if e = 'r' then some '\r'
          else if e = 't' then some '\t'
          else none
        match esc with
        | some ch => (decodeJsonStrBody fuel rest2).map (ch :: ·)
        | none => none
      | [] => none
    else (decodeJsonStrBody fuel rest).map (c :: ·)

/-- The JSON string literal parse (see `decodeJsonStrBody`). -/
def decodeJsonStr (s : String) : Option String :=
  match s.data with
  | '"' :: rest => (decodeJsonStrBody (s.length + 1) rest).map String.mk
  | _ => none

/-- Modelled from the spec: `Packet::namespace` (the canonical socket
module's accessor is absent from src/) — the namespace recorded in the
header, defaulting to `"/"` (spec §3: namespace: string, default `"/"`). -/
def packetNamespace (p : Socket.Packet) : String :=
  p.nsp.getD "/"

/-- The `Data::Event` branch of `Receiver::process_packet` (receiver.rs):
take argument 0 (`EventNoArgs` when absent), deserialize it as the event
name, look the callback up by (namespace, name) and invoke it with the
packet's full `Args` view and the optional ack id. The `Args` view handed to
the callback is modelled by the list of argument texts (exactly the view the
event name was read from); the result records the invocation. -/
def processEvent (c : Callbacks) (p : Socket.Packet) :
    Except DispatchError (Option (Callback × List String × Option Nat)) :=
  match p.args.head? with
  | none => .error .eventNoArgs
  | some a0 =>
    match decodeJsonStr a0 with
    | none => .error .argsError
    | some name =>
      match c.getEvent (packetNamespace p) name with
      | some cb => .ok (some (cb, p.args, p.id))
      | none => .ok none

end Client

/-! Claim theorems and their helper lemmas follow. -/

/-! Claim theorems and their helper lemmas follow. -/

section EngineTheorems

open Engine

/-- C3 (counterexample): the claim says a text frame with first byte `'4'`
succeeds only in state `Active`; but the `'4'` branch of `decode_text` has no
state check, so in state `Initial` the frame `"4x"` decodes successfully. -/
theorem c3_counterexample :
    decode (fun _ => none) .initial (.text "4x") =
      .ok (.message (.text "x"), .initial) := rfl

/-- C3 (amended): the engine decoder's lifecycle discipline for text frames
with first byte in 0..4. An `Open` frame succeeds only in `Initial`
(elsewhere it errors with `SecondOpen` or `MessageAfterClose`); bytes
`'1'`/`'2'`/`'3'` succeed exactly in `Active`; byte `'4'` succeeds exactly in
the non-`Closed` states; in `Closed` every frame fails with
`MessageAfterClose`. -/
theorem c3_engine_lifecycle (po : String → Option Open) (st : State)
    (rest : List Char) :
    ((decode po st (.text (String.mk ('0' :: rest)))).isOk → st = .initial) ∧
    (∀ c, (c = '1' ∨ c = '2' ∨ c = '3') →
      ((decode po st (.text (String.mk (c :: rest)))).isOk ↔ st = .active)) ∧
    ((decode po st (.text (String.mk ('4' :: rest)))).isOk ↔ st ≠ .closed) ∧
    (∀ s, st = .closed → decode po st (.text s) = .error .messageAfterClose) := by
  refine ⟨?_, ?_, ?_, ?_⟩
  · cases st with
    | initial => intro _; rfl
    | active => intro h; simp [decode, decodeText, Except.isOk, Except.toBool] at h
    | closed => intro h; simp [decode, Except.isOk, Except.toBool] at h
  · intro c hc
    rcases hc with h | h | h <;> subst h <;> cases st <;>
      simp [decode, decodeText, Except.isOk, Except.toBool]
  · cases st <;> simp [decode, decodeText, Except.isOk, Except.toBool]
  · intro s hs
    subst hs
    rfl

/-- C3 (witness for the amended theorem). -/
theorem c3_engine_lifecycle_witness :
    ((decode (fun _ => none) .active (.text "2")).isOk ↔ .active = State.active) ∧
    (decode (fun _ => none) .closed (.text "2") = .error .messageAfterClose) :=
  ⟨(c3_engine_lifecycle (fun _ => none) .active []).2.1 '2' (by decide),
   (c3_engine_lifecycle (fun _ => none) .closed []).2.2.2 "2" rfl⟩

/-- C8 (counterexample): the claim says transport-level `Ping`/`Pong`/`Close`
frames fail with `WrongMessageType` in every state; in state `Closed` the
decoder instead fails with `MessageAfterClose` (the closed check runs
first). -/
theorem c8_counterexample :
    decode (fun _ => none) .closed .close = .error .messageAfterClose ∧
    Error.messageAfterClose ≠ Error.wrongMessageType .close :=
  ⟨rfl, by decide⟩

/-- C8 (amended): in the `Initial` and `Active` states the decoder rejects a
transport-level `Ping`, `Pong` or `Close` frame with `WrongMessageType`; in
`Closed` every such frame (like every frame) fails with `MessageAfterClose`. -/
theorem c8_transport_frames (po : String → Option Open) (st : State)
    (msg : WsMessage) (h : msg.isTransport = true) :
    (st ≠ .closed → decode po st msg = .error (.wrongMessageType msg)) ∧
    (st = .closed → decode po st msg = .error .messageAfterClose) := by
  cases msg <;> simp_all [WsMessage.isTransport] <;>
    cases st <;> simp_all [decode]

/-- C8 (witness for the amended theorem). -/
theorem c8_transport_frames_witness :
    decode (fun _ => none) .active (.ping [1]) =
      .error (.wrongMessageType (.ping [1])) :=
  (c8_transport_frames (fun _ => none) .active (.ping [1]) (by decide)).1
    (by decide)

end EngineTheorems

section ArgsTheorems

/-- C2: the sequence-of-bytes serialization heuristic on the three spec
scenarios. An empty sequence emits the JSON text `[]` and no attachment; the
heterogeneous sequence `[1, "x"]` (whose elements do not serialize through
`serialize_u8`) emits `[1,"x"]` and no attachment; a sequence of the four
bytes de ad be ef emits a single placeholder object and appends exactly one
binary attachment frame whose payload after the binary header is those
bytes. -/
theorem c2_seq_bytes_heuristic :
    Args.seqSerialize [] [] = ("[]", []) ∧
    Args.seqSerialize [.val "1", .val "\"x\""] [] = ("[1,\"x\"]", []) ∧
    Args.seqSerialize [.byte 0xde, .byte 0xad, .byte 0xbe, .byte 0xef] [] =
      ("\x7b\"_placeholder\":true,\"num\":0\x7d",
        [.binary (4 :: [0xde, 0xad, 0xbe, 0xef])]) ∧
    (4 :: [0xde, 0xad, 0xbe, 0xef]).drop 1 = [0xde, 0xad, 0xbe, 0xef] :=
  ⟨rfl, rfl, rfl, rfl⟩

/-- C1 (counterexample): the claim says a placeholder object deserialized at
a target that is neither bytes-like nor sequence-like (here: `map`, access
type `Neither`) is passed through as a regular two-field map; the adapter
instead resolves it to the attachment as a sequence of bytes. -/
theorem c1_counterexample :
    Args.visitMap (Args.accessTypeFor .map) [[222, 173, 190, 239]]
        [("_placeholder", .bool true), ("num", .num 0)] =
      .ok (.byteSeq [222, 173, 190, 239]) ∧
    (∀ fields, Args.VisitResult.byteSeq [222, 173, 190, 239] ≠
      .passthroughMap fields) :=
  ⟨rfl, fun _ h => Args.VisitResult.noConfusion h⟩

/-- C1 (amended): for every deserialization entry point, a well-formed
placeholder object whose index is in range resolves to the referenced
attachment — as borrowed bytes when the entry point's access type is
`Bytes` (`str`/`string`/`bytes`/`byte_buf`), and as a sequence of the
attachment's bytes for every other entry point (sequence-like or not); only
an object whose first key is not `_placeholder` is passed through as a
regular map. -/
theorem c1_placeholder_resolution (tk : Args.TargetKind)
    (buffers : List (List Nat)) (b : Bool) (k : Nat) (buf : List Nat)
    (hbuf : buffers[k]? = some buf) :
    (Args.visitMap (Args.accessTypeFor tk) buffers
        [("_placeholder", .bool b), ("num", .num (k : Int))] =
      .ok (match Args.accessTypeFor tk with
           | .bytes => .borrowedBytes buf
           | _ => .byteSeq buf)) ∧
    (∀ key v rest, key ≠ "_placeholder" →
      Args.visitMap (Args.accessTypeFor tk) buffers ((key, v) :: rest) =
        .ok (.passthroughMap ((key, v) :: rest))) ∧
    (Args.visitMap (Args.accessTypeFor tk) buffers [] =
      .ok (.passthroughMap [])) := by
  refine ⟨?_, ?_, rfl⟩
  · have hk : ¬ ((k : Int) < 0) := not_lt.mpr (Int.natCast_nonneg k)
    have ht : ((k : Int)).toNat = k := Int.toNat_natCast k
    simp only [Args.visitMap, if_pos rfl, if_neg hk, ht, hbuf,
      List.isEmpty_nil, if_true]
    cases Args.accessTypeFor tk <;> rfl
  · intro key v rest hkey
    simp only [Args.visitMap]
    rw [if_neg hkey]

/-- C1 (witness for the amended theorem). -/
theorem c1_placeholder_resolution_witness :
    Args.visitMap (Args.accessTypeFor .u64) [[7, 8]]
        [("_placeholder", .bool true), ("num", .num 0)] =
      .ok (.byteSeq [7, 8]) ∧
    Args.visitMap (Args.accessTypeFor .bytes) [[7, 8]]
        [("_placeholder", .bool false), ("num", .num 0)] =
      .ok (.borrowedBytes [7, 8]) :=
  ⟨(c1_placeholder_resolution .u64 [[7, 8]] true 0 [7, 8] rfl).1,
   (c1_placeholder_resolution .bytes [[7, 8]] false 0 [7, 8] rfl).1⟩

end ArgsTheorems

section SerTheorems

/-- C7: `serialize_arg` is not atomic with respect to the whole builder
state. For the fresh non-binary ack builder (header `433`), a failed first
`serialize_arg` leaves the text buffer unchanged (the write of `[` is rolled
back) — but the `first` flag stays consumed, so the next successful argument
is written with a leading `,` instead of `[`, and `finish` produces the
malformed frame `433,"x"]` instead of `433["x"]`. This contradicts the
method's own documentation ("If serialization fails, the internal state will
be unchanged"). -/
theorem c7_serialize_arg_not_atomic :
    (((Socket.PacketBuilder.newAck none 3 false).serializeArg .failing).1.buffer =
      (Socket.PacketBuilder.newAck none 3 false).buffer) ∧
    ((Socket.PacketBuilder.newAck none 3 false).serializeArg .failing).2 = false ∧
    ((((Socket.PacketBuilder.newAck none 3 false).serializeArg .failing).1.serializeArg
        (.json "\"x\"")).1.finish = [.text "433,\"x\"]"]) ∧
    (((Socket.PacketBuilder.newAck none 3 false).serializeArg
        (.json "\"x\"")).1.finish = [.text "433[\"x\"]"]) ∧
    ([Engine.WsMessage.text "433,\"x\"]"] ≠ [Engine.WsMessage.text "433[\"x\"]"]) :=
  ⟨rfl, rfl, rfl, rfl, by decide⟩

/-- C4: the text round-trip fails. Building an Event packet with namespace
`/n`, no id, event name `ev` and one further argument `[2]` produces the
frame `42/n,["ev",[2]]`; parsing the socket message `2/n,["ev",[2]]` fails
with `InvalidDataJson` on the fragment `[2]]`, because the greedy namespace
group of `DESERIALIZE_RE` captures `/n,["ev"` and leaves `[2]]` as the
argument text. -/
theorem c4_roundtrip_failure :
    (((Socket.PacketBuilder.newEvent "ev" (some "/n") none false).serializeArg
        (.json "[2]")).1.finish = [.text "42/n,[\"ev\",[2]]"]) ∧
    Socket.deserializeText "2/n,[\"ev\",[2]]" =
      .error (.invalidDataJson "[2]]") :=
  ⟨rfl, rfl⟩

end SerTheorems

section SocketDeTheorems

open Socket

/-- Helper: a successful `deserializeEvent` returns the packet built from
the parse with the supplied attachments, whose count matched the declared
count. -/
theorem deserializeEvent_ok {pr : Parse} {kind : Kind} {name : String}
    {atts : List (List Nat)} {p : Packet}
    (h : deserializeEvent pr kind name atts = .ok p) :
    p = ⟨pr.message, kind, pr.nsp, pr.id, pr.args, atts⟩ ∧
    atts.length = pr.attachments.getD 0 := by
  unfold deserializeEvent at h
  by_cases h1 : (kind = Kind.ack ∧ pr.id.isNone) ∨ pr.args.isEmpty
  · rw [if_pos h1] at h
    exact absurd h (by simp)
  · rw [if_neg h1] at h
    by_cases h2 : atts.length ≠ pr.attachments.getD 0
    · rw [if_pos h2] at h
      exact absurd h (by simp)
    · rw [if_neg h2] at h
      exact ⟨(Except.ok.inj h).symm, not_ne_iff.mp h2⟩

/-- Helper: a successful `deserializeDataless` returns the attachment-free
packet and implies the header declared no attachment count. -/
theorem deserializeDataless_ok {pr : Parse} {kind : Kind} {name : String}
    {p : Packet} (h : deserializeDataless pr kind name = .ok p) :
    p = ⟨pr.message, kind, pr.nsp, none, [], []⟩ ∧ pr.attachments = none := by
  unfold deserializeDataless at h
  by_cases h1 : pr.attachments.isSome ∨ pr.id.isSome ∨ ¬ pr.args.isEmpty
  · rw [if_pos h1] at h
    exact absurd h (by simp)
  · rw [if_neg h1] at h
    rw [not_or, not_or] at h1
    exact ⟨(Except.ok.inj h).symm,
      Option.not_isSome_iff_eq_none.mp (by exact_mod_cast h1.1)⟩

/-- Helper: mapping `.packet` over an `Except` hits `.ok (.packet p)` only
from `.ok p`. -/
theorem map_packet_ok {x : Except SocketError Packet} {p : Packet}
    (h : x.map DeserializeResult.packet = .ok (.packet p)) : x = .ok p := by
  cases x with
  | error e => exact absurd h (by simp [Except.map])
  | ok q =>
    simp only [Except.map, Except.ok.injEq, DeserializeResult.packet.injEq] at h
    rw [h]

/-- Helper: collecting a list of binary engine messages succeeds with their
payloads. -/
theorem collectAttachments_map_binary (bufs : List (List Nat)) :
    collectAttachments (bufs.map Engine.Message.binary) = .ok bufs := by
  induction bufs with
  | nil => rfl
  | cons b rest ih => simp [collectAttachments, ih, Except.map]

end SocketDeTheorems

section SocketInvariantTheorems

open Socket

/-- Helper: once the header parse is known, `deserializeText` is the kind
dispatch. -/
theorem deserializeText_ok_parse (s : String) (pr : Parse)
    (hp : parseText s = .ok pr) :
    deserializeText s =
      match pr.kind with
      | .connect => (deserializeDataless pr .connect "connect").map .packet
      | .disconnect =>
        (deserializeDataless pr .disconnect "disconnect").map .packet
      | .event => (deserializeEvent pr .event "event" []).map .packet
      | .ack => (deserializeEvent pr .ack "ack" []).map .packet
      | .binaryEvent => deserializeBinary pr .event "binary event"
      | .binaryAck => deserializeBinary pr .ack "binary ack" := by
  unfold deserializeText
  rw [hp]

/-- Helper: assembling from binary buffers is the kind dispatch over the
collected payloads. -/
theorem deserializePartial_map_binary (pp : PartialParse)
    (bufs : List (List Nat)) :
    deserializePartial pp (bufs.map .binary) =
      match pp.parse.kind with
      | .binaryEvent => deserializeEvent pp.parse .event "binary event" bufs
      | .binaryAck => deserializeEvent pp.parse .ack "binary ack" bufs
      | _ => .error (.invalidMessage pp.parse.message) := by
  unfold deserializePartial
  rw [collectAttachments_map_binary]

/-- C5 (counterexample): the claim says assembling a partial with a wrong
number of buffers fails with `InvalidAttachmentCount(actual, expected)`. The
header `61-` (BinaryAck, one declared attachment, no id, no args) parses to
a `Partial`; assembling it with two buffers fails with `MissingData` (the
id/args validation of `deserialize_event` runs before the count check), not
with `InvalidAttachmentCount(2, 1)`. -/
theorem c5_counterexample :
    Socket.deserializeText "61-" =
      .ok (.dataNeeded ⟨⟨"61-", .binaryAck, some 1, none, none, []⟩⟩) ∧
    Socket.deserializePartial ⟨⟨"61-", .binaryAck, some 1, none, none, []⟩⟩
        [.binary [1], .binary [2]] =
      .error (.missingData "binary ack" "61-") ∧
    (SocketError.missingData "binary ack" "61-" ≠
      SocketError.invalidAttachmentCount 2 1) :=
  ⟨rfl, rfl, by decide⟩

/-- C5 (amended): every successfully constructed packet has as many
attachments as its header declared (an absent count counting as 0); the
assembler is ready exactly when the collected count equals the declared
count; and assembling a partial that passes the id/args validation with any
other number of buffers fails with `InvalidAttachmentCount(actual,
expected)` without producing a packet (a partial that fails that validation
errors with `MissingData` instead). -/
theorem c5_attachment_invariant :
    (∀ s p, deserializeText s = .ok (.packet p) →
      ∃ pr, parseText s = .ok pr ∧
        p.attachments.length = pr.attachments.getD 0) ∧
    (∀ pp atts p, deserializePartial pp atts = .ok p →
      p.attachments.length = pp.parse.attachments.getD 0) ∧
    (∀ ip : Client.InProgress,
      ip.ready = true ↔
        ip.partialParse.attachmentCount = ip.attachments.length) ∧
    (∀ (pp : PartialParse) (bufs : List (List Nat)),
      ¬ pp.parse.args.isEmpty →
      (pp.parse.kind = .binaryEvent ∨
        (pp.parse.kind = .binaryAck ∧ pp.parse.id.isSome)) →
      bufs.length ≠ pp.parse.attachments.getD 0 →
      deserializePartial pp (bufs.map .binary) =
        .error (.invalidAttachmentCount bufs.length
          (pp.parse.attachments.getD 0))) := by
  refine ⟨?_, ?_, ?_, ?_⟩
  · intro s p h
    unfold deserializeText at h
    split at h
    · exact absurd h (by simp)
    next pr heq =>
      refine ⟨pr, heq, ?_⟩
      split at h
      · obtain ⟨hp2, hatt⟩ := deserializeDataless_ok (map_packet_ok h)
        simp [hp2, hatt]
      · obtain ⟨hp2, hatt⟩ := deserializeDataless_ok (map_packet_ok h)
        simp [hp2, hatt]
      · obtain ⟨hp2, hlen⟩ := deserializeEvent_ok (map_packet_ok h)
        rw [hp2]
        exact hlen
      · obtain ⟨hp2, hlen⟩ := deserializeEvent_ok (map_packet_ok h)
        rw [hp2]
        exact hlen
      · unfold deserializeBinary at h
        split at h
        · split at h
          · obtain ⟨hp2, hlen⟩ := deserializeEvent_ok (map_packet_ok h)
            rw [hp2]
            exact hlen
          · exact absurd h (by simp)
        · exact absurd h (by simp)
      · unfold deserializeBinary at h
        split at h
        · split at h
          · obtain ⟨hp2, hlen⟩ := deserializeEvent_ok (map_packet_ok h)
            rw [hp2]
            exact hlen
          · exact absurd h (by simp)
        · exact absurd h (by simp)
  · intro pp atts p h
    unfold deserializePartial at h
    split at h
    · exact absurd h (by simp)
    · split at h
      · obtain ⟨hp2, hlen⟩ := deserializeEvent_ok h
        rw [hp2]
        exact hlen
      · obtain ⟨hp2, hlen⟩ := deserializeEvent_ok h
        rw [hp2]
        exact hlen
      · exact absurd h (by simp)
  · intro ip
    simp [Client.InProgress.ready]
  · intro pp bufs hargs hkind hne
    rw [deserializePartial_map_binary]
    rcases hkind with hk | ⟨hk, hid⟩
    · rw [hk]
      show deserializeEvent pp.parse .event "binary event" bufs = _
      unfold deserializeEvent
      rw [if_neg (by simp [hargs]), if_pos hne]
    · rw [hk]
      show deserializeEvent pp.parse .ack "binary ack" bufs = _
      unfold deserializeEvent
      rw [if_neg ?hguard, if_pos hne]
      case hguard =>
        rintro (⟨-, hn⟩ | he)
        · rw [Option.isNone_iff_eq_none] at hn
          rw [hn] at hid
          exact absurd hid (by simp)
        · exact hargs he

/-- C5 (witness for the amended theorem): instantiated at the plain event
`2["x"]`, at the binary-ack partial of `61-1["x"]` assembled with one
buffer, at a concrete in-progress assembler, and at a wrong-count
assembly. -/
theorem c5_attachment_invariant_witness :
    (∃ pr, parseText "2[\"x\"]" = .ok pr ∧
      (Packet.mk "2[\"x\"]" .event none none ["\"x\""]
        []).attachments.length = pr.attachments.getD 0) ∧
    ((Client.InProgress.mk ⟨⟨"61-1[\"x\"]", .binaryAck, some 1, none, some 1,
        ["\"x\""]⟩⟩ [.binary [222]]).ready = true ↔
      (Socket.PartialParse.mk ⟨"61-1[\"x\"]", .binaryAck, some 1, none, some 1,
        ["\"x\""]⟩).attachmentCount = 1) ∧
    deserializePartial ⟨⟨"61-1[\"x\"]", .binaryAck, some 1, none, some 1,
        ["\"x\""]⟩⟩ [.binary [222], .binary [7]] =
      .error (.invalidAttachmentCount 2 1) := by
  refine ⟨?_, ?_, ?_⟩
  · exact c5_attachment_invariant.1 "2[\"x\"]"
      ⟨"2[\"x\"]", .event, none, none, ["\"x\""], []⟩ rfl
  · exact c5_attachment_invariant.2.2.1
      ⟨⟨⟨"61-1[\"x\"]", .binaryAck, some 1, none, some 1, ["\"x\""]⟩⟩,
        [.binary [222]]⟩
  · have := c5_attachment_invariant.2.2.2
      ⟨⟨"61-1[\"x\"]", .binaryAck, some 1, none, some 1, ["\"x\""]⟩⟩
      [[222], [7]] (by decide) (Or.inr ⟨rfl, rfl⟩) (by decide)
    simpa using this

/-- C9: a `BinaryEvent` or `BinaryAck` header declaring 0 attachments, whose
id/args validation passes, parses to a complete packet immediately — kind
normalised to `Event`/`Ack`, attachment list empty — rather than to a
`Partial`. -/
theorem c9_zero_attachments (s : String) (pr : Parse)
    (hp : parseText s = .ok pr) (h0 : pr.attachments = some 0)
    (hargs : ¬ pr.args.isEmpty) :
    (pr.kind = .binaryEvent →
      deserializeText s =
        .ok (.packet ⟨pr.message, .event, pr.nsp, pr.id, pr.args, []⟩)) ∧
    (pr.kind = .binaryAck → pr.id.isSome →
      deserializeText s =
        .ok (.packet ⟨pr.message, .ack, pr.nsp, pr.id, pr.args, []⟩)) := by
  constructor
  · intro hk
    rw [deserializeText_ok_parse s pr hp, hk]
    show deserializeBinary pr .event "binary event" = _
    unfold deserializeBinary
    rw [h0]
    show Except.map DeserializeResult.packet
      (deserializeEvent pr Kind.event "binary event" []) = _
    unfold deserializeEvent
    rw [if_neg (by simp [hargs]), if_neg (by simp [h0])]
    rfl
  · intro hk hid
    rw [deserializeText_ok_parse s pr hp, hk]
    show deserializeBinary pr .ack "binary ack" = _
    unfold deserializeBinary
    rw [h0]
    show Except.map DeserializeResult.packet
      (deserializeEvent pr Kind.ack "binary ack" []) = _
    unfold deserializeEvent
    rw [if_neg ?hguard, if_neg (by simp [h0])]
    · rfl
    case hguard =>
      rintro (⟨-, hn⟩ | he)
      · rw [Option.isNone_iff_eq_none] at hn
        rw [hn] at hid
        exact absurd hid (by simp)
      · exact hargs he

/-- C9 (witness): the zero-attachment binary event `50-["x"]` and binary ack
`60-1["x"]` parse to complete packets. -/
theorem c9_zero_attachments_witness :
    deserializeText "50-[\"x\"]" =
      .ok (.packet ⟨"50-[\"x\"]", .event, none, none, ["\"x\""], []⟩) ∧
    deserializeText "60-1[\"x\"]" =
      .ok (.packet ⟨"60-1[\"x\"]", .ack, none, some 1, ["\"x\""], []⟩) :=
  ⟨(c9_zero_attachments "50-[\"x\"]"
      ⟨"50-[\"x\"]", .binaryEvent, some 0, none, none, ["\"x\""]⟩
      rfl rfl (by decide)).1 rfl,
   (c9_zero_attachments "60-1[\"x\"]"
      ⟨"60-1[\"x\"]", .binaryAck, some 0, none, some 1, ["\"x\""]⟩
      rfl rfl (by decide)).2 rfl rfl⟩

end SocketInvariantTheorems

section ClientTheorems

open Client

/-- Helper: a key-preserving entry update commutes with `find?` on the
namespace key. -/
theorem find?_update_nsp (l : List (String × NamespaceEntry))
    (g : String × NamespaceEntry → String × NamespaceEntry)
    (hg : ∀ kv, (g kv).1 = kv.1) (nsp : String) :
    (l.map g).find? (fun kv => kv.1 == nsp) =
      (l.find? (fun kv => kv.1 == nsp)).map g := by
  induction l with
  | nil => rfl
  | cons hd tl ih =>
    by_cases h : hd.1 = nsp
    · simp [List.find?, h, hg]
    · have hb : (hd.1 == nsp) = false := beq_eq_false_iff_ne.mpr h
      simp [List.find?, hb, h, hg, ih]

/-- Helper: no entry with the removed key survives the removal filter. -/
theorem find?_filter_removed (l : List (Nat × Callback)) (id : Nat) :
    (l.filter (fun a => !(a.1 == id))).find? (fun a => a.1 == id) = none := by
  rw [List.find?_eq_none]
  intro x hx
  have hmem := (List.mem_filter.mp hx).2
  simp only [Bool.not_eq_true', beq_eq_false_iff_ne, ne_eq] at hmem
  simp [hmem]

/-- C6: ack dispatch is at most once. A successful ack dispatch removes the
callback from the table in the same operation that retrieves it, so the
updated table has no entry for the pair, and dispatching a second `Ack`
carrying the same namespace and id fails with `UnexpectedAck`. -/
theorem c6_ack_once (c : Callbacks) (nsp : String) (id : Nat)
    (cb : Callback) (c2 : Callbacks)
    (h : processAck c nsp id = .ok (cb, c2)) :
    c2.lookupAck nsp id = none ∧
    processAck c2 nsp id = .error .unexpectedAck := by
  cases hf : c.namespaces.find? (fun kv => kv.1 == nsp) with
  | none =>
    have hgc : c.getAndClearAck nsp id = (none, c) := by
      unfold Callbacks.getAndClearAck
      rw [hf]
    unfold processAck at h
    rw [hgc] at h
    exact absurd h (by simp)
  | some kv =>
    have hgc : c.getAndClearAck nsp id =
        ((kv.2.acks.find? (fun a => a.1 == id)).map (·.2),
         ⟨c.namespaces.map (fun kv2 =>
            if kv2.1 = nsp then
              (kv2.1,
                { kv2.2 with
                  acks := kv2.2.acks.filter (fun a => !(a.1 == id)) })
            else kv2)⟩) := by
      unfold Callbacks.getAndClearAck
      rw [hf]
    unfold processAck at h
    rw [hgc] at h
    cases ha : kv.2.acks.find? (fun a => a.1 == id) with
    | none =>
      rw [ha] at h
      exact absurd h (by simp)
    | some entry =>
      rw [ha] at h
      simp only [Option.map_some', Except.ok.injEq, Prod.mk.injEq] at h
      have hkey : kv.1 = nsp := by
        have := List.find?_some hf
        exact eq_of_beq this
      have hc2 : c2.namespaces =
          c.namespaces.map (fun kv2 =>
            if kv2.1 = nsp then
              (kv2.1,
                { kv2.2 with
                  acks := kv2.2.acks.filter (fun a => !(a.1 == id)) })
            else kv2) := by
        rw [← h.2]
      have hf2 : c2.namespaces.find? (fun kv2 => kv2.1 == nsp) =
          some (kv.1,
            { kv.2 with acks := kv.2.acks.filter (fun a => !(a.1 == id)) }) := by
        have hgen := find?_update_nsp c.namespaces
          (fun kv2 =>
            if kv2.1 = nsp then
              (kv2.1,
                { kv2.2 with
                  acks := kv2.2.acks.filter (fun a => !(a.1 == id)) })
            else kv2)
          (by
            intro kv2
            by_cases hh : kv2.1 = nsp <;> simp [hh])
          nsp
        rw [hf] at hgen
        rw [hc2, hgen]
        simp [hkey]
      have hnone : ((kv.2.acks.filter (fun a => !(a.1 == id))).find?
          (fun a => a.1 == id)) = none := find?_filter_removed _ _
      have hl2 : c2.lookupAck nsp id = none := by
        unfold Callbacks.lookupAck
        rw [hf2]
        simp only [hnone, Option.map_none']
      refine ⟨hl2, ?_⟩
      unfold processAck Callbacks.getAndClearAck
      rw [hf2]
      simp only [hnone, Option.map_none']

/-- C6 (witness): a table holding one ack callback for `("/", 5)` fires it
once; afterwards the entry is gone and a second dispatch is
`UnexpectedAck`. -/
theorem c6_ack_once_witness :
    (Callbacks.mk [("/", ⟨none, [], []⟩)]).lookupAck "/" 5 = none ∧
    processAck ⟨[("/", ⟨none, [], []⟩)]⟩ "/" 5 = .error .unexpectedAck :=
  c6_ack_once ⟨[("/", ⟨none, [], [(5, 77)]⟩)]⟩ "/" 5 77
    ⟨[("/", ⟨none, [], []⟩)]⟩ rfl

/-- C10: event dispatch reads the event name by deserialising argument 0 as
a string, looks the callback up by (namespace, that string), and invokes it
with the packet's full argument view — the event-name element stays at index
0 of the arguments handed to the callback; a packet with no arguments fails
with `EventNoArgs` before any lookup (for every table). -/
theorem c10_event_dispatch (c : Callbacks) (p : Socket.Packet) :
    (p.args = [] → processEvent c p = .error .eventNoArgs) ∧
    (∀ a0 rest name, p.args = a0 :: rest → decodeJsonStr a0 = some name →
      processEvent c p =
        .ok ((c.getEvent (packetNamespace p) name).map
          (fun cb => (cb, p.args, p.id)))) := by
  constructor
  · intro h
    unfold processEvent
    rw [h]
    rfl
  · intro a0 rest name hargs hname
    unfold processEvent
    rw [hargs]
    simp only [List.head?_cons]
    rw [hname]
    cases hg : c.getEvent (packetNamespace p) name <;> simp [hg, hargs]

/-- C10 (witness): a packet with arguments `["ev", 1]` dispatched against a
table with an `ev` callback on the default namespace: the callback is looked
up under `ev` and receives the full argument list (the name at index 0) and
no ack id. -/
theorem c10_event_dispatch_witness :
    processEvent ⟨[("/", ⟨none, [("ev", 9)], []⟩)]⟩
        ⟨"2[\"ev\",1]", .event, none, none, ["\"ev\"", "1"], []⟩ =
      .ok (some (9, ["\"ev\"", "1"], none)) := by
  have := (c10_event_dispatch ⟨[("/", ⟨none, [("ev", 9)], []⟩)]⟩
      ⟨"2[\"ev\",1]", .event, none, none, ["\"ev\"", "1"], []⟩).2
    "\"ev\"" ["1"] "ev" rfl rfl
  simpa using this

end ClientTheorems
